import Mathlib

/-!
Verification development for the `attribute-order` template-lint rule
(`src/lib/rules/attribute-order.js`).

The JavaScript source is shallowly embedded below.  Design choices, each
noted where it matters:

* JS numbers arising here are source positions (`loc.start.line`,
  `loc.start.column`) and their products; both are natural numbers in the
  host AST (lines 1-based, columns 0-based), so they are modelled as `Nat`.
* JS comparisons against `undefined` (`x > undefined`, `x === undefined`)
  are `false`; they are modelled by `Option`-valued comparison helpers
  (`jsGT`, `jsLT`, `jsEqNum`) that return `false` whenever a side is `none`.
* JS truthiness of a number (`x && …`) is `false` for `0` and `undefined`;
  modelled by `truthyNum`.
* JS string comparison (`<`, `>`) compares UTF-16 code units
  lexicographically; modelled by `lexLt` on `List Char` (all strings
  involved are ASCII, where code units and code points agree).
* `Array.prototype.sort` with the comparators appearing in the source is
  modelled as a stable insertion sort `jsSort le` where `le a b` means
  "the comparator returns ≤ 0 on (a, b)"; the engine's TimSort is stable,
  and for the comparators that the proved statements depend on the order is
  total, so any stable sort yields the same sequence.
* `console.log` calls in the source are pure-model no-ops.
-/

set_option maxRecDepth 8000

namespace AttrOrder

/-- JS lexicographic comparison of strings by code unit (`a < b`). -/
def lexLt : List Char → List Char → Bool
  | [], [] => false
  | [], _ :: _ => true
  | _ :: _, [] => false
  | a :: as, b :: bs =>
    if a.toNat < b.toNat then true
    else if b.toNat < a.toNat then false
    else lexLt as bs

/-- JS `a < b` on strings. -/
def strLt (a b : String) : Bool := lexLt a.data b.data

/-- JS `String.prototype.includes` (substring test), needed for
`node.type.includes('Comment')`. -/
def listContainsSub (sub : List Char) : List Char → Bool
  | [] => sub.isEmpty
  | c :: rest => sub.isPrefixOf (c :: rest) || listContainsSub sub rest

def strIncludes (s sub : String) : Bool := listContainsSub sub.data s.data

/-- JS `String.prototype.startsWith`. -/
def strStartsWith (s p : String) : Bool := p.data.isPrefixOf s.data

/-- JS `a > b` where both sides may be `undefined` (comparison with
`undefined` is `false`). -/
def jsGT (a b : Option Nat) : Bool :=
  match a, b with
  | some x, some y => decide (y < x)
  | _, _ => false

/-- JS `a < b` on possibly-`undefined` numbers. -/
def jsLT (a b : Option Nat) : Bool :=
  match a, b with
  | some x, some y => decide (x < y)
  | _, _ => false

/-- JS `a === b` on possibly-`undefined` numbers (`undefined === x` is
`false` even against the `±Infinity` produced by `Math.max()`/`Math.min()`
on empty argument lists). -/
def jsEqNum (a b : Option Nat) : Bool :=
  match a, b with
  | some x, some y => decide (x = y)
  | _, _ => false

/-- JS truthiness of a possibly-`undefined` number: `0` and `undefined`
are falsy. -/
def truthyNum (a : Option Nat) : Bool :=
  match a with
  | some n => decide (n ≠ 0)
  | none => false

/-- JS `Array.prototype.indexOf`: index of the first occurrence, `-1` if
absent. -/
def jsIndexOf [DecidableEq α] (l : List α) (a : α) : Int :=
  match l.findIdx? (fun x => x = a) with
  | some i => (i : Int)
  | none => -1

/-- JS `Array.prototype.findIndex`: `-1` when no element matches. -/
def jsFindIndex (l : List α) (p : α → Bool) : Int :=
  match l.findIdx? p with
  | some i => (i : Int)
  | none => -1

/-- Stable insertion used by `jsSort`. -/
def jsOrderedInsert (le : α → α → Bool) (a : α) : List α → List α
  | [] => [a]
  | b :: l => if le a b then a :: b :: l else b :: jsOrderedInsert le a l

/-- Model of `Array.prototype.sort` with a comparator: a stable sort by
`le a b` = "comparator(a, b) ≤ 0". -/
def jsSort (le : α → α → Bool) : List α → List α
  | [] => []
  | a :: l => jsOrderedInsert le a (jsSort le l)

/-- Mirrors the `TokenType` enum of the source.  `valuesList` below fixes
the `Object.values`/`Object.keys` iteration order (declaration order). -/
inductive TokenType
  | arguments
  | attributes
  | modifiers
  | splattributes
  | comments
deriving DecidableEq

/-- String value of a `TokenType` (the enum's values). -/
def TokenType.toStr : TokenType → String
  | .arguments => "arguments"
  | .attributes => "attributes"
  | .modifiers => "modifiers"
  | .splattributes => "splattributes"
  | .comments => "comments"

/-- Model of a child token of a node (an `AttrNode`, element modifier,
comment statement, or mustache hash pair).  `line`/`column` are
`loc.start`, `endColumn` is `loc.end.column`; `src` is what the host's
`sourceForNode` returns for the token (a collaborator outside `src/`,
modelled from the spec's "source-range accessor"); `pathOriginal` is
`path.original` for modifiers. -/
structure RawToken where
  type : String
  name : Option String
  value : String
  pathOriginal : String
  line : Nat
  column : Nat
  endColumn : Nat
  src : String
deriving DecidableEq

/-- Source `calculateAttributeIndex`: `loc.start.line * loc.start.column`. -/
def calculateAttributeIndex (t : RawToken) : Nat := t.line * t.column

/-- Source `getTokenType`.  JS `!node.name` is also true for an empty
string (falsy), hence the extra `n = ""` case. -/
def getTokenType (t : RawToken) : TokenType :=
  if strIncludes t.type "Comment" then .comments
  else
    match t.name with
    | none => .modifiers
    | some n =>
      if n = "" then .modifiers
      else if strStartsWith n "@" then .arguments
      else if strStartsWith n "..." then .splattributes
      else .attributes

/-- Source `getTokenCategory`: arguments, attributes and splattributes
collapse to the `attributes` super-category. -/
def getTokenCategory (tt : TokenType) : TokenType :=
  if tt = .arguments ∨ tt = .attributes ∨ tt = .splattributes then .attributes
  else tt

def isAsciiAlpha (c : Char) : Bool :=
  ('A' ≤ c ∧ c ≤ 'Z') ∨ ('a' ≤ c ∧ c ≤ 'z')

def isWordOrDash (c : Char) : Bool :=
  isAsciiAlpha c || ('0' ≤ c ∧ c ≤ '9') || c = '_' || c = '-'

/-- Group 2 of the source regex `/([^A-Za-z]*)([\w-]*)/` applied at the
start of `s`: drop the maximal non-alphabetic prefix, then take the
maximal run of word characters and dashes. -/
def normalizeSource (s : String) : String :=
  ⟨(s.data.dropWhile (fun c => !isAsciiAlpha c)).takeWhile isWordOrDash⟩

/-- Source class `TokenGroup`: all tokens of one `TokenType` for a node. -/
structure TokenGroup where
  type : TokenType
  items : List RawToken
deriving DecidableEq

/-- Getter `indexes`. -/
def TokenGroup.indexes (g : TokenGroup) : List Nat :=
  g.items.map calculateAttributeIndex

/-- Getter `exists` of the source (`items.length > 0`); renamed because
`exists` is a Lean keyword. -/
def TokenGroup.existsTokens (g : TokenGroup) : Bool := !g.items.isEmpty

/-- Getter `lastIndex`: `Math.max(...indexes)`, `undefined` when empty. -/
def TokenGroup.lastIndex (g : TokenGroup) : Option Nat := g.indexes.max?

/-- Getter `firstIndex`: `Math.min(...indexes)`, `undefined` when empty. -/
def TokenGroup.firstIndex (g : TokenGroup) : Option Nat := g.indexes.min?

/-- Helper for `unalphabetizedItemIndex`: first index `i ≥ base` whose
normalized source compares less than its predecessor's. -/
def firstInversionAux (prev : String) : List String → Nat → Option Nat
  | [], _ => none
  | x :: xs, i => if strLt x prev then some i else firstInversionAux x xs (i + 1)

/-- Getter `unalphabetizedItemIndex`: `findIndex((e, idx) => idx > 0 &&
e < alpha[idx-1])` over the normalized sources, `-1` when none. -/
def TokenGroup.unalphabetizedItemIndex (g : TokenGroup) : Int :=
  let alpha := g.items.map (fun t => normalizeSource t.src)
  match alpha with
  | [] => -1
  | x :: xs =>
    match firstInversionAux x xs 1 with
    | some i => (i : Int)
    | none => -1

/-- The five token groups of a node, keyed by `TokenType` (the source's
`this.tokenGroups` object). -/
structure TokenGroups where
  arguments : TokenGroup
  attributes : TokenGroup
  modifiers : TokenGroup
  splattributes : TokenGroup
  comments : TokenGroup
deriving DecidableEq

def TokenGroups.get (tg : TokenGroups) : TokenType → TokenGroup
  | .arguments => tg.arguments
  | .attributes => tg.attributes
  | .modifiers => tg.modifiers
  | .splattributes => tg.splattributes
  | .comments => tg.comments

/-- `Object.values(this.tokenGroups)` in the `TokenType` declaration
order. -/
def TokenGroups.valuesList (tg : TokenGroups) : List TokenGroup :=
  [tg.arguments, tg.attributes, tg.modifiers, tg.splattributes, tg.comments]

/-- Model of the host `ElementNode` as the rule consumes it.  `src` is the
host `sourceForNode` result (`none` for synthesized nodes); `children` and
`blockParams` are opaque payload carried through the rebuild. -/
structure ElementNode where
  tag : String
  attributes : List RawToken
  modifiers : List RawToken
  comments : List RawToken
  line : Nat
  selfClosing : Bool
  children : List Nat
  blockParams : List String
  src : Option String
deriving DecidableEq

/-- Source `getElementNodeTokens` + `groupTokens` + `makeTokenGroups`:
classify `node.attributes` by `getTokenType`, then append `node.modifiers`
to the modifiers group and `node.comments` to the comments group (the
iteration order of the source's three loops). -/
def mkGroups (node : ElementNode) : TokenGroups where
  arguments := ⟨.arguments, node.attributes.filter (fun t => getTokenType t = .arguments)⟩
  attributes := ⟨.attributes, node.attributes.filter (fun t => getTokenType t = .attributes)⟩
  modifiers := ⟨.modifiers,
    node.attributes.filter (fun t => getTokenType t = .modifiers) ++ node.modifiers⟩
  splattributes := ⟨.splattributes,
    node.attributes.filter (fun t => getTokenType t = .splattributes)⟩
  comments := ⟨.comments,
    node.attributes.filter (fun t => getTokenType t = .comments) ++ node.comments⟩

/-- Rule configuration after parsing. -/
structure Config where
  alphabetize : Bool
  order : List TokenType
deriving DecidableEq

def DEFAULT_CONFIG : Config :=
  { alphabetize := true, order := [.arguments, .attributes, .modifiers] }

/-- Source `areSplattributesSurrounded`.  Note two JS quirks kept intact:
the `splattributeLastIndex < 0` guard never fires (indexes are products of
naturals and `undefined < 0` is `false`), and `lastIndex ||
Number.NEGATIVE_INFINITY` / `firstIndex || Number.POSITIVE_INFINITY` treat
an index of `0` as missing (falsy). -/
def areSplattributesSurrounded (tg : TokenGroups) : Bool :=
  let splattributeLastIndex := tg.splattributes.lastIndex
  if jsLT splattributeLastIndex (some 0) then false
  else
    let maxVals := tg.valuesList.filterMap fun g =>
      match g.lastIndex with
      | some n => if n = 0 then none else some n
      | none => none
    let minVals := tg.valuesList.filterMap fun g =>
      match g.firstIndex with
      | some n => if n = 0 then none else some n
      | none => none
    match splattributeLastIndex with
    | none => false
    | some s =>
      (match minVals.min? with
       | some m => decide (m < s)
       | none => false) &&
      (match maxVals.max? with
       | some M => decide (s < M)
       | none => false)

/-- Source `getAppliedOrder` without the memoization (the pure computation
from the current token groups).  `filter((i) => Number.isInteger(i))`
keeps exactly the defined `lastIndex` values. -/
def getAppliedOrderFresh (cfg : Config) (tg : TokenGroups) : List TokenType :=
  let ints := tg.valuesList.filterMap (fun g => g.lastIndex)
  let maxLastIndex := ints.max?
  let minLastIndex := ints.min?
  let orderMinusSplattributes := cfg.order.filter (fun tt => tt ≠ .splattributes)
  let splattributeLastIndex := tg.splattributes.lastIndex
  let attributeLastIndex := tg.attributes.lastIndex
  if jsEqNum splattributeLastIndex maxLastIndex ||
      (truthyNum splattributeLastIndex && jsGT splattributeLastIndex attributeLastIndex) then
    orderMinusSplattributes ++ [.splattributes]
  else if jsEqNum splattributeLastIndex minLastIndex ||
      (truthyNum splattributeLastIndex && jsLT splattributeLastIndex attributeLastIndex) then
    .splattributes :: orderMinusSplattributes
  else
    orderMinusSplattributes ++ [.splattributes]

/-- The rule instance's mutable fields `appliedOrder` and `tokenGroups`
(class fields of `AttributeOrder`, initialized to `undefined`). -/
structure RuleState where
  appliedOrder : Option (List TokenType)
  tokenGroups : TokenGroups
deriving DecidableEq

def emptyGroup (tt : TokenType) : TokenGroup := ⟨tt, []⟩

def emptyGroups : TokenGroups where
  arguments := emptyGroup .arguments
  attributes := emptyGroup .attributes
  modifiers := emptyGroup .modifiers
  splattributes := emptyGroup .splattributes
  comments := emptyGroup .comments

def initState : RuleState := { appliedOrder := none, tokenGroups := emptyGroups }

/-- Source `getAppliedOrder` with its memoization on the rule instance:
returns the cached order when present, otherwise computes it from the
current token groups and stores it.  Nothing in the source ever resets
`this.appliedOrder`. -/
def getAppliedOrderSt (cfg : Config) (st : RuleState) : List TokenType × RuleState :=
  match st.appliedOrder with
  | some o => (o, st)
  | none =>
    let o := getAppliedOrderFresh cfg st.tokenGroups
    (o, { st with appliedOrder := some o })

/-- Index into the applied order at a possibly-out-of-range position:
`this.tokenGroups[this.getAppliedOrder()[k]]` would be a read of
`undefined` in JS when `k` is out of range; that read is unreachable for
the configurations exercised here (the applied order always has its four
categories), and is modelled as the empty group. -/
def groupAt (tg : TokenGroups) (o : List TokenType) (k : Nat) : TokenGroup :=
  match o.get? k with
  | some tt => tg.get tt
  | none => emptyGroup .comments

/-- Source `isAttributeUnordered`, with the applied order passed
explicitly (`getOrder(tokenType)` is `indexOf` into it; the call sequence
through the memo is handled by the caller).  The `default` switch branch
returns `undefined`, which is falsy at the call site. -/
def isAttributeUnorderedO (o : List TokenType) (tg : TokenGroups) (tt : TokenType) : Bool :=
  let order := jsIndexOf o tt
  if !(tg.get tt).existsTokens then false
  else if areSplattributesSurrounded tg then false
  else if order = 0 then
    jsGT (tg.get tt).lastIndex (groupAt tg o 1).firstIndex ||
    jsGT (tg.get tt).lastIndex (groupAt tg o 2).firstIndex ||
    jsGT (tg.get tt).lastIndex (groupAt tg o 3).firstIndex
  else if order = 1 then
    jsLT (tg.get tt).lastIndex (groupAt tg o 0).firstIndex ||
    jsGT (tg.get tt).lastIndex (groupAt tg o 2).firstIndex
  else if order = 2 then
    jsLT (tg.get tt).lastIndex (groupAt tg o 1).lastIndex ||
    jsGT (tg.get tt).lastIndex (groupAt tg o 3).lastIndex
  else if order = 3 then
    jsLT (tg.get tt).lastIndex (groupAt tg o 2).lastIndex
  else
    false

/-- Source `capitalizedAttribute`: `string[0].toUpperCase() +
string.slice(1, -1)` — note `slice(1, -1)` drops the final character.
`string[0]` on an empty string would throw in JS; the function is only
applied to the five category names. -/
def capitalizedAttribute (s : String) : String :=
  match s.data with
  | [] => ""
  | c :: rest => ⟨c.toUpper :: rest.dropLast⟩

def createNotAlphabetizedErrorMessage (tt : TokenType) (source : String) : String :=
  capitalizedAttribute tt.toStr ++ " " ++ source ++ " is not alphabetized"

/-- String interpolation of a possibly-missing applied-order entry (JS
prints `undefined`). -/
def optTokenStr : Option TokenType → String
  | some tt => tt.toStr
  | none => "undefined"

def listAtInt (l : List TokenType) (i : Int) : Option TokenType :=
  if i < 0 then none else l.get? i.toNat

/-- Source `createUnorderedErrorMessage`; `order` is `getOrder(tokenType)`
(read back from the memoized applied order `o`). -/
def createUnorderedErrorMessage (cfg : Config) (o : List TokenType) (tt : TokenType)
    (source : String) : String :=
  let order := jsIndexOf o tt
  if order = 0 then
    let otherAttributes := optTokenStr (listAtInt o 1) ++ " and " ++ optTokenStr (listAtInt o 2)
    capitalizedAttribute tt.toStr ++ " " ++ source ++ " must go before " ++ otherAttributes
  else if order = 1 then
    capitalizedAttribute tt.toStr ++ " " ++ source ++ " must go after " ++
      optTokenStr (listAtInt cfg.order (order - 1))
  else
    capitalizedAttribute tt.toStr ++ " " ++ source ++ " must go after " ++
      optTokenStr (listAtInt o (order - 1))

/-- Source `findUnalphabetizedToken`: `items[unalphabetizedItemIndex]`
(`items[-1]` is `undefined`). -/
def findUnalphabetizedToken (g : TokenGroup) : Option RawToken :=
  let i := g.unalphabetizedItemIndex
  if i < 0 then none else g.items.get? i.toNat

/-- Source `findUnorderedToken`: the first item whose index equals the
group's `lastIndex`. -/
def findUnorderedToken (g : TokenGroup) : Option RawToken :=
  g.items.find? (fun t => some (calculateAttributeIndex t) = g.lastIndex)

/-- The rule's `this.mode` (`'fix'` or detection). -/
inductive Mode
  | detect
  | fix
deriving DecidableEq

/-- One `replaceNode(node, parentNode, parentKey, newNode)` call issued to
the host's tree-mutation collaborator (modelled from the spec's
"tree-mutation collaborator"; the collaborator itself is outside `src/`).
`old` is the node passed as `node`. -/
structure ReplaceRequest where
  old : ElementNode
  newNode : ElementNode
deriving DecidableEq

/-- Result of `checkElementAttributesOrder`: logged diagnostics (their
`message` fields; `isFixable` is always `true` in the source), the replace
requests issued, and the rule instance's state after the visit. -/
structure CheckResult where
  diags : List String
  requests : List ReplaceRequest
  state : RuleState
deriving DecidableEq

/-- Source `getNode`: scan `Object.values(this.tokenGroups)` in order and
return the first node with the sought `type` whose truthy `name` matches,
or whose `value` matches.  The only caller passes a comment, so the
`value` comparison is a string comparison (comment values are strings;
`===` on two attribute value *objects* would be identity, but the `type`
test already rules those out). -/
def getNode (tg : TokenGroups) (target : RawToken) : Option RawToken :=
  ((tg.valuesList.map TokenGroup.items).flatten).find? fun n =>
    n.type = target.type &&
      ((match n.name with
        | some s => s ≠ "" && target.name = some s
        | none => false) ||
       n.value = target.value)

/-- Source `getAllIndexes`: all token indexes of all groups, sorted
ascending (`sort((a, b) => a - b)`). -/
def getAllIndexes (tg : TokenGroups) : List Nat :=
  jsSort (fun a b => decide (a ≤ b)) ((tg.valuesList.map TokenGroup.indexes).flatten)

/-- Predicate of the `findIndex` inside `orderComment`:
`indexOfNext && this.calculateAttributeIndex(node) === indexOfNext` —
falsy `indexOfNext` (`undefined`, or an index of `0`) never matches. -/
def orderCommentNextPred (indexOfNext : Option Nat) (n : RawToken) : Bool :=
  match indexOfNext with
  | some k => if k = 0 then false else decide (calculateAttributeIndex n = k)
  | none => false

/-- Loop body of source `orderComment` (the `while (reverseComments.length)`
loop, structurally recursive on the remaining comments).  Kept quirks:
`this.getAllIndexes.length` reads the *function object's* arity (`0`), so
the "keep as trailing comment" branch tests `fromOrder === -1`; and a
negative `toPosInSorted` skips the `splice`, dropping the comment from
`sorted`.  `getNode` cannot miss for a comment drawn from the node's own
groups (JS would throw on a miss); the model falls back to the comment
itself. -/
def orderCommentGo (tg : TokenGroups) : List RawToken → List RawToken → List RawToken
  | [], sorted => sorted
  | comment :: rest, sorted =>
    let token := (getNode tg comment).getD comment
    let fromOrder : Int := jsIndexOf (getAllIndexes tg) (calculateAttributeIndex token)
    let indexOfNext : Option Nat := (getAllIndexes tg).get? (fromOrder + 1).toNat
    let toPosInSorted : Int :=
      if fromOrder = -1 then fromOrder
      else jsFindIndex sorted (orderCommentNextPred indexOfNext)
    if toPosInSorted < 0 then orderCommentGo tg rest sorted
    else orderCommentGo tg rest (sorted.insertIdx toPosInSorted.toNat token)

/-- Source `orderComment`: sort the node's comments by descending index
(the in-place `node[COMMENTS].sort` is modelled functionally) and insert
each before the token that originally followed it. -/
def orderComment (tg : TokenGroups) (nodeComments : List RawToken)
    (sorted : List RawToken) : List RawToken :=
  let reverseComments := jsSort
    (fun a b => decide (calculateAttributeIndex b ≤ calculateAttributeIndex a)) nodeComments
  orderCommentGo tg reverseComments sorted

/-- Source `makeToken`: rebuild a token via the host's builders with the
given synthetic location (builders are outside `src/`; modelled from the
spec's "node-construction collaborator").  `b.attr` yields an `AttrNode`;
modifiers and comments keep their node types; all payload fields are
carried over. -/
def makeToken (cat : TokenType) (t : RawToken) (line startCol endCol : Nat) : RawToken :=
  match cat with
  | .modifiers => { t with line := line, column := startCol, endColumn := endCol }
  | .comments => { t with line := line, column := startCol, endColumn := endCol }
  | _ => { t with type := "AttrNode", line := line, column := startCol, endColumn := endCol }

/-- Accumulator of the `sorted.reduce` inside `replaceNode`. -/
structure RebuildAcc where
  attrs : List RawToken
  mods : List RawToken
  comms : List RawToken
  cursor : Option Nat
deriving DecidableEq

/-- One step of the `sorted.reduce` inside `replaceNode`.  `acc.cursor ||
minColumn` falls back to `minColumn` when the cursor is undefined (first
token) — or `0`, which cannot occur since later cursors are `endColumn +
2 ≥ 2`.  The token width `loc.end.column - loc.start.column` is a `Nat`
subtraction; it matches JS for single-line tokens (multi-line tokens would
give a negative JS width, which no proved statement depends on). -/
def rebuildStep (nodeLine minColumn : Nat) (acc : RebuildAcc) (currAttr : RawToken) :
    RebuildAcc :=
  let nodeType := getTokenCategory (getTokenType currAttr)
  let startColumn := match acc.cursor with
    | some c => if c = 0 then minColumn else c
    | none => minColumn
  let endColumn := startColumn + (currAttr.endColumn - currAttr.column)
  let newAttribute := makeToken nodeType currAttr nodeLine startColumn endColumn
  let acc' := match nodeType with
    | .modifiers => { acc with mods := acc.mods ++ [newAttribute] }
    | .comments => { acc with comms := acc.comms ++ [newAttribute] }
    | _ => { acc with attrs := acc.attrs ++ [newAttribute] }
  { acc' with cursor := some (endColumn + 2) }

/-- Source method `replaceNode` up to the host call: rebuild a whole
element from `sorted` with synthetic single-line locations starting at
column `tag.length + 2`, preserving children, block params and the
self-closing flag.  `b.element` is called without a location, so the
rebuilt node has no genuine source (`src := none`). -/
def rebuildNode (node : ElementNode) (sorted : List RawToken) : ElementNode :=
  let minColumn := node.tag.length + 2
  let acc := sorted.foldl (rebuildStep node.line minColumn)
    { attrs := [], mods := [], comms := [], cursor := none }
  { tag := node.tag
    attributes := acc.attrs
    modifiers := acc.mods
    comments := acc.comms
    line := node.line
    selfClosing := node.selfClosing
    children := node.children
    blockParams := node.blockParams
    src := none }

/-- Comparator of the `node[ATTRIBUTES].sort` inside `alphabetizeAttribute`
as an integer result: `'...attributes'` is pinned to the edge assigned by
the applied order, everything else compares by raw `name`.  (JS `a.name >
b.name` with an `undefined` side is `false`.) -/
def alphaCmp (splatOrder : Int) (a b : RawToken) : Int :=
  if a.name = some "...attributes" then (if splatOrder = 3 then 1 else -1)
  else
    match a.name, b.name with
    | some x, some y => if strLt y x then 1 else -1
    | _, _ => -1

/-- Builder call `b.attr(attr.name, attr.value)` with no location: the
synthetic default location is line 0, column 0. -/
def builderAttr (t : RawToken) : RawToken :=
  { t with type := "AttrNode", line := 0, column := 0, endColumn := 0 }

/-- Builder call `b.elementModifier(b.path(node.path), node.params,
node.hash)` with no location. -/
def builderModifier (t : RawToken) : RawToken :=
  { t with line := 0, column := 0, endColumn := 0 }

/-- Fix branch of source `alphabetizeAttribute`: sort the node's
attributes (splattributes pinned by the applied order) and modifiers (by
`path.original`), rebuild, call `replaceNode`, reinsert comments with
`orderComment`, and call `replaceNode` again.  The source sorts the
node's own arrays in place and queries `getOrder(SPLATTRIBUTES)` inside
the comparator; the model sorts functionally and performs the memoized
query once up front (every query during one visit returns the same
order). -/
def alphabetizeAttributeFix (cfg : Config) (st : RuleState) (node : ElementNode) :
    List ReplaceRequest × RuleState :=
  let res := getAppliedOrderSt cfg st
  let splatOrder := jsIndexOf res.1 .splattributes
  let attrs := (jsSort (fun a b => alphaCmp splatOrder a b ≤ 0) node.attributes).map builderAttr
  let modifiers := (jsSort (fun a b => !(strLt b.pathOriginal a.pathOriginal))
    node.modifiers).map builderModifier
  let comments := node.comments
  let sorted := attrs ++ modifiers ++ comments
  let req1 : ReplaceRequest := { old := node, newNode := rebuildNode node sorted }
  let sorted2 := if comments.length ≠ 0 then orderComment res.2.tokenGroups comments sorted
    else sorted
  let req2 : ReplaceRequest := { old := node, newNode := rebuildNode node sorted2 }
  ([req1, req2], res.2)

/-- Source `alphabetizeAttribute`: bail out when the group has no
unalphabetized item, otherwise fix (fix mode) or log (detection). -/
def alphabetizeAttribute (cfg : Config) (mode : Mode) (st : RuleState) (node : ElementNode)
    (tt : TokenType) : List String × List ReplaceRequest × RuleState :=
  match findUnalphabetizedToken (st.tokenGroups.get tt) with
  | none => ([], [], st)
  | some item =>
    match mode with
    | .fix =>
      let res := alphabetizeAttributeFix cfg st node
      ([], res.1, res.2)
    | .detect => ([createNotAlphabetizedErrorMessage tt item.src], [], st)

/-- Comparator of the sort inside `orderAttribute` as an integer result:
primary key is the applied rank of the token's type; for equal ranks the
comparator *returns the boolean* `idx(a) > idx(b)`, which JS coerces to
`1`/`0` (`0` meaning "keep relative order" for the stable sort).  All
tokens here carry locations, so the `a.loc && b.loc` guard holds. -/
def orderCmp (o : List TokenType) (a b : RawToken) : Int :=
  let orderA := jsIndexOf o (getTokenType a)
  let orderB := jsIndexOf o (getTokenType b)
  if orderA = orderB then
    (if calculateAttributeIndex a > calculateAttributeIndex b then 1 else 0)
  else if orderA > orderB then 1 else -1

/-- Fix branch of source `orderAttribute`: stable-sort the union of the
node's attributes and modifiers by applied rank then original index,
reinsert comments, and request one whole-node replacement. -/
def orderAttributeFix (cfg : Config) (st : RuleState) (node : ElementNode) :
    List ReplaceRequest × RuleState :=
  let res := getAppliedOrderSt cfg st
  let attributesModifiers := node.attributes ++ node.modifiers
  let sorted := jsSort (fun a b => orderCmp res.1 a b ≤ 0) attributesModifiers
  let sorted2 := if node.comments.length ≠ 0 then
      orderComment res.2.tokenGroups node.comments sorted
    else sorted
  ([{ old := node, newNode := rebuildNode node sorted2 }], res.2)

/-- Source `orderAttribute`: fix (fix mode) or log the unordered
diagnostic (detection).  `o` is the applied order already memoized by the
preceding `isAttributeUnordered` call; `findUnorderedToken` cannot miss
for a non-empty group (a token attains `lastIndex`), and the model prints
`undefined` on the unreachable miss as JS interpolation would. -/
def orderAttribute (cfg : Config) (mode : Mode) (o : List TokenType) (st : RuleState)
    (node : ElementNode) (tt : TokenType) : List String × List ReplaceRequest × RuleState :=
  let item := findUnorderedToken (st.tokenGroups.get tt)
  match mode with
  | .fix =>
    let res := orderAttributeFix cfg st node
    ([], res.1, res.2)
  | .detect =>
    ([createUnorderedErrorMessage cfg o tt
        (match item with | some it => it.src | none => "undefined")], [], st)

/-- Alphabetization half of one loop iteration of
`checkElementAttributesOrder`: the `isAttributeUnalphabetized` scan over
all groups and the guarded `alphabetizeAttribute` call. -/
def alphPart (cfg : Config) (mode : Mode) (st : RuleState) (node : ElementNode)
    (tt : TokenType) : List String × List ReplaceRequest × RuleState :=
  let isAttributeUnalphabetized := st.tokenGroups.valuesList.any fun g =>
    g.type ≠ .comments && (findUnalphabetizedToken g).isSome
  if cfg.alphabetize && isAttributeUnalphabetized &&
      !(areSplattributesSurrounded st.tokenGroups) then
    alphabetizeAttribute cfg mode st node tt
  else ([], [], st)

/-- Ordering half of one loop iteration: `isAttributeUnordered` (whose
first line queries `getOrder`, going through the applied-order memo) and
the guarded `orderAttribute` call. -/
def ordPart (cfg : Config) (mode : Mode) (st : RuleState) (node : ElementNode)
    (tt : TokenType) : List String × List ReplaceRequest × RuleState :=
  let ordRes := getAppliedOrderSt cfg st
  if isAttributeUnorderedO ordRes.1 ordRes.2.tokenGroups tt then
    orderAttribute cfg mode ordRes.1 ordRes.2 node tt
  else ([], [], ordRes.2)

/-- One iteration of the `for (const tokenType of this.config.order)` loop
of `checkElementAttributesOrder`. -/
def checkStep (cfg : Config) (mode : Mode) (node : ElementNode) (tt : TokenType)
    (st : RuleState) : List String × List ReplaceRequest × RuleState :=
  let step1 := alphPart cfg mode st node tt
  let step2 := ordPart cfg mode step1.2.2 node tt
  (step1.1 ++ step2.1, step1.2.1 ++ step2.2.1, step2.2.2)

/-- The whole `for (const tokenType of this.config.order)` loop. -/
def checkLoop (cfg : Config) (mode : Mode) (node : ElementNode) :
    List TokenType → RuleState → CheckResult
  | [], st => { diags := [], requests := [], state := st }
  | tt :: rest, st =>
    let s := checkStep cfg mode node tt st
    let restRes := checkLoop cfg mode node rest s.2.2
    { diags := s.1 ++ restRes.diags
      requests := s.2.1 ++ restRes.requests
      state := restRes.state }

/-- JS truthiness of the `sourceForNode` result: `undefined` and the empty
string are falsy, so both skip the node. -/
def truthySrc (src : Option String) : Bool :=
  match src with
  | some s => s ≠ ""
  | none => false

/-- Source `checkElementAttributesOrder`: skip nodes without genuine
source text, build the token groups (`makeTokenGroups` assigns
`this.tokenGroups`; `this.appliedOrder` is *not* reset), then run the
per-category loop. -/
def checkElement (cfg : Config) (mode : Mode) (st : RuleState) (node : ElementNode) :
    CheckResult :=
  if !truthySrc node.src then { diags := [], requests := [], state := st }
  else
    checkLoop cfg mode node cfg.order { st with tokenGroups := mkGroups node }

/-- A mustache-statement hash pair (`{key, value}` with its location and
source text). -/
structure HashPair where
  key : String
  line : Nat
  column : Nat
  src : String
deriving DecidableEq

/-- Model of a `MustacheStatement` node as the rule consumes it. -/
structure MustacheNode where
  pathType : String
  pairs : List HashPair
  src : Option String
deriving DecidableEq

/-- A hash pair as pushed into the `ATTRIBUTES` token group by
`getMustacheStatementTokens` (`type` is the AST's `HashPair`, which the
group getters only touch through `sourceForNode` and the location). -/
def pairToken (p : HashPair) : RawToken :=
  { type := "HashPair", name := some p.key, value := "", pathOriginal := "",
    line := p.line, column := p.column, endColumn := p.column, src := p.src }

/-- Comparator `(a, b) => (a.key > b.key ? 1 : -1)` of the in-place
`node.hash.pairs.sort`, as the `jsSort` relation "comparator ≤ 0". -/
def pairLe (a b : HashPair) : Bool := !(strLt b.key a.key)

/-- Result of `checkMustacheAttributesOrder`.  The mustache path issues no
replace requests (its fix sorts `node.hash.pairs` in place, reflected here
in the returned node), so `requests` is always empty; the field makes that
observable. -/
structure MustacheResult where
  node : MustacheNode
  diags : List String
  requests : List ReplaceRequest
  state : RuleState
deriving DecidableEq

/-- Source `checkMustacheAttributesOrder`: skip when the node has no
genuine source or its callee is not a plain path; otherwise the pairs form
the `ATTRIBUTES` group, and an alphabetization finding is either fixed by
the in-place `node.hash.pairs.sort((a, b) => (a.key > b.key ? 1 : -1))`
or logged. -/
def checkMustache (cfg : Config) (mode : Mode) (st : RuleState) (node : MustacheNode) :
    MustacheResult :=
  if !truthySrc node.src || node.pathType ≠ "PathExpression" then
    { node := node, diags := [], requests := [], state := st }
  else
    let tg : TokenGroups :=
      { arguments := emptyGroup .arguments
        attributes := ⟨.attributes, node.pairs.map pairToken⟩
        modifiers := emptyGroup .modifiers
        splattributes := emptyGroup .splattributes
        comments := emptyGroup .comments }
    let st1 := { st with tokenGroups := tg }
    let tokenGroup := tg.attributes
    if cfg.alphabetize && tokenGroup.unalphabetizedItemIndex ≥ 0 then
      match mode with
      | .fix =>
        { node := { node with pairs := jsSort pairLe node.pairs }, diags := [],
          requests := [], state := st1 }
      | .detect =>
        { node := node
          diags := [createNotAlphabetizedErrorMessage .attributes
            (match findUnalphabetizedToken tokenGroup with
             | some it => it.src
             | none => "undefined")]
          requests := [], state := st1 }
    else
      { node := node, diags := [], requests := [], state := st1 }

/-- A raw configuration value as passed to `parseConfig`: a boolean, an
object with the two recognized fields, or anything else. -/
inductive ConfigValue
  | bool (b : Bool)
  | obj (alphabetize : Option Bool) (order : Option (List TokenType))
  | other
deriving DecidableEq

/-- Modelled from the spec: the helper `isValidConfigObjectFormat`
(`src/lib/helpers/is-valid-config-object.js`) is not under `src/`; the
spec only says `parseConfig` fails "if the raw shape is otherwise
invalid".  Modelled as accepting booleans and objects whose fields have
the recognized shapes (which the `ConfigValue` type already enforces). -/
def isValidConfigObjectFormat : ConfigValue → Bool
  | .bool _ => true
  | .obj _ _ => true
  | .other => false

def ERROR_MESSAGE : String := "Your config does not match the allowed values"

/-- A parsed configuration: `false` (rule disabled) or a `Config`. -/
inductive ParseResult
  | disabled
  | enabled (c : Config)
deriving DecidableEq

/-- Source `parseConfig`.  Note `config.order && …` is truthy for *any*
array (even empty), and `{...DEFAULT_CONFIG, ...config}` fills each
omitted field from the default. -/
def parseConfig (config : ConfigValue) : Except String ParseResult :=
  if !isValidConfigObjectFormat config then .error ERROR_MESSAGE
  else
    match config with
    | .bool false => .ok .disabled
    | .obj alpha order =>
      if (match order with
          | some l => !([TokenType.arguments, .attributes, .modifiers].all
              (fun tt => l.contains tt))
          | none => false) then
        .error ERROR_MESSAGE
      else
        .ok (.enabled
          { alphabetize := alpha.getD DEFAULT_CONFIG.alphabetize
            order := order.getD DEFAULT_CONFIG.order })
    | _ => .ok (.enabled DEFAULT_CONFIG)

/-! Concrete nodes used by the witnesses and counterexamples below. -/

/-- Attribute `b="1"` of Example 1 (`<div b="1" a="2">`). -/
def tokB : RawToken :=
  { type := "AttrNode", name := some "b", value := "1", pathOriginal := "",
    line := 1, column := 5, endColumn := 10, src := "b=\"1\"" }

/-- Attribute `a="2"` of Example 1. -/
def tokA : RawToken :=
  { type := "AttrNode", name := some "a", value := "2", pathOriginal := "",
    line := 1, column := 11, endColumn := 16, src := "a=\"2\"" }

/-- Example 1 element `<div b="1" a="2">`. -/
def nodeEx1 : ElementNode :=
  { tag := "div", attributes := [tokB, tokA], modifiers := [], comments := [],
    line := 1, selfClosing := false, children := [], blockParams := [],
    src := some "<div b=\"1\" a=\"2\">" }

/-- Attribute `b="1"` sitting at column 0 of a continuation line: its
position index is `2 * 0 = 0`. -/
def tokZeroB : RawToken :=
  { type := "AttrNode", name := some "b", value := "1", pathOriginal := "",
    line := 2, column := 0, endColumn := 5, src := "b=\"1\"" }

/-- Spread marker `...attributes` at index `2 * 2 = 4`. -/
def tokSplatMid : RawToken :=
  { type := "AttrNode", name := some "...attributes", value := "", pathOriginal := "",
    line := 2, column := 2, endColumn := 15, src := "...attributes" }

/-- Attribute `a="2"` at index `2 * 3 = 6`. -/
def tokAAfter : RawToken :=
  { type := "AttrNode", name := some "a", value := "2", pathOriginal := "",
    line := 2, column := 3, endColumn := 8, src := "a=\"2\"" }

/-- Multi-line element whose first attribute sits at column 0: the spread
marker's index 4 lies strictly between the true global extremes 0 and 6,
yet `areSplattributesSurrounded` computes `false` because the `0` is
dropped by the `firstIndex || Infinity` truthiness fallback. -/
def nodeC1 : ElementNode :=
  { tag := "div", attributes := [tokZeroB, tokSplatMid, tokAAfter], modifiers := [],
    comments := [], line := 1, selfClosing := false, children := [], blockParams := [],
    src := some "<div\nb=\"1\" ...attributes a=\"2\">" }

/-- Attribute `a="1"` of the genuinely sandwiched element
`<div a="1" ...attributes b="2">` (all indexes nonzero). -/
def tokSandA : RawToken :=
  { type := "AttrNode", name := some "a", value := "1", pathOriginal := "",
    line := 1, column := 5, endColumn := 10, src := "a=\"1\"" }

/-- Spread marker of the sandwiched element, index 10. -/
def tokSandSplat : RawToken :=
  { type := "AttrNode", name := some "...attributes", value := "", pathOriginal := "",
    line := 1, column := 10, endColumn := 23, src := "...attributes" }

/-- Attribute `b="2"` of the sandwiched element, index 25. -/
def tokSandB : RawToken :=
  { type := "AttrNode", name := some "b", value := "2", pathOriginal := "",
    line := 1, column := 25, endColumn := 30, src := "b=\"2\"" }

/-- Element `<div a="1" ...attributes b="2">`: the spread is sandwiched
and every index is nonzero. -/
def nodeSand : ElementNode :=
  { tag := "div", attributes := [tokSandA, tokSandSplat, tokSandB], modifiers := [],
    comments := [], line := 1, selfClosing := false, children := [], blockParams := [],
    src := some "<div a=\"1\" ...attributes b=\"2\">" }

/-- Modifier `{{m}}` at index 4 (before the attribute). -/
def tokMod : RawToken :=
  { type := "ElementModifierStatement", name := none, value := "", pathOriginal := "m",
    line := 1, column := 4, endColumn := 9, src := "\x7b\x7bm\x7d\x7d" }

/-- Attribute `a="1"` at index 6. -/
def tokC2A : RawToken :=
  { type := "AttrNode", name := some "a", value := "1", pathOriginal := "",
    line := 1, column := 6, endColumn := 11, src := "a=\"1\"" }

/-- Trailing comment at index 9 — the last token of the element. -/
def tokTrailComment : RawToken :=
  { type := "MustacheCommentStatement", name := none, value := " c ", pathOriginal := "",
    line := 1, column := 9, endColumn := 21, src := "\x7b\x7b!-- c --\x7d\x7d" }

/-- Element `<div {{m}} a="1" {{!-- c --}}>` whose trailing token is a
comment; its modifier precedes its attribute, so `orderAttribute` fires in
fix mode. -/
def nodeC2 : ElementNode :=
  { tag := "div", attributes := [tokC2A], modifiers := [tokMod],
    comments := [tokTrailComment], line := 1, selfClosing := false, children := [],
    blockParams := [], src := some "<div \x7b\x7bm\x7d\x7d a=\"1\" \x7b\x7b!-- c --\x7d\x7d>" }

/-- Spread marker of `nodeC3first`, index 5 (last index of no category's
maximum, before the attribute). -/
def tokC3Splat : RawToken :=
  { type := "AttrNode", name := some "...attributes", value := "", pathOriginal := "",
    line := 1, column := 5, endColumn := 18, src := "...attributes" }

/-- Attribute `a="1"` of `nodeC3first`, index 10. -/
def tokC3A : RawToken :=
  { type := "AttrNode", name := some "a", value := "1", pathOriginal := "",
    line := 1, column := 10, endColumn := 15, src := "a=\"1\"" }

/-- First processed element `<div ...attributes a="1">`: its applied order
puts splattributes first. -/
def nodeC3first : ElementNode :=
  { tag := "div", attributes := [tokC3Splat, tokC3A], modifiers := [], comments := [],
    line := 1, selfClosing := false, children := [], blockParams := [],
    src := some "<div ...attributes a=\"1\">" }

/-- Attribute `b="1"` of `nodeC3second`, index 5. -/
def tokC3B : RawToken :=
  { type := "AttrNode", name := some "b", value := "1", pathOriginal := "",
    line := 1, column := 5, endColumn := 10, src := "b=\"1\"" }

/-- Second processed element `<div b="1">`: alone, its applied order puts
splattributes last. -/
def nodeC3second : ElementNode :=
  { tag := "div", attributes := [tokC3B], modifiers := [], comments := [],
    line := 1, selfClosing := false, children := [], blockParams := [],
    src := some "<div b=\"1\">" }

/-- Attribute `c="1"` at index 2 of the C4 element. -/
def tokC4C : RawToken :=
  { type := "AttrNode", name := some "c", value := "1", pathOriginal := "",
    line := 1, column := 2, endColumn := 7, src := "c=\"1\"" }

/-- Spread marker at index 6 of the C4 element (sandwiched). -/
def tokC4Splat : RawToken :=
  { type := "AttrNode", name := some "...attributes", value := "", pathOriginal := "",
    line := 1, column := 6, endColumn := 19, src := "...attributes" }

/-- Attribute `d="2"` at index 10 of the C4 element. -/
def tokC4D : RawToken :=
  { type := "AttrNode", name := some "d", value := "2", pathOriginal := "",
    line := 1, column := 10, endColumn := 15, src := "d=\"2\"" }

/-- Argument `@x="3"` at index 12 of the C4 element: its rank-1 order
condition holds, yet the sandwiched spread suppresses the predicate. -/
def tokC4Arg : RawToken :=
  { type := "AttrNode", name := some "@x", value := "3", pathOriginal := "",
    line := 1, column := 12, endColumn := 18, src := "@x=\"3\"" }

/-- Element `<div c="1" ...attributes d="2" @x="3">` (by index:
`c`@2, spread@6, `d`@10, `@x`@12). -/
def nodeC4 : ElementNode :=
  { tag := "div", attributes := [tokC4C, tokC4Splat, tokC4D, tokC4Arg], modifiers := [],
    comments := [], line := 1, selfClosing := false, children := [], blockParams := [],
    src := some "<div c=\"1\" ...attributes d=\"2\" @x=\"3\">" }

/-- Hash pair `_b=1` (key `_b`, normalized source `b`). -/
def pairUB : HashPair := { key := "_b", line := 1, column := 6, src := "_b=1" }

/-- Hash pair `a=2`. -/
def pairA : HashPair := { key := "a", line := 1, column := 11, src := "a=2" }

/-- Mustache statement `{{foo _b=1 a=2}}`: raw key order (`_b` before `a`)
disagrees with the normalized source order (`b` after `a`). -/
def mustacheC6 : MustacheNode :=
  { pathType := "PathExpression", pairs := [pairUB, pairA], src := some "\x7b\x7bfoo _b=1 a=2\x7d\x7d" }

/-- Hash pair `b=1`. -/
def pairB : HashPair := { key := "b", line := 1, column := 6, src := "b=1" }

/-- Hash pair `a=2` of the C7 mustache. -/
def pairC7A : HashPair := { key := "a", line := 1, column := 10, src := "a=2" }

/-- Mustache statement `{{foo b=1 a=2}}` (Example 4). -/
def mustacheC7 : MustacheNode :=
  { pathType := "PathExpression", pairs := [pairB, pairC7A], src := some "\x7b\x7bfoo b=1 a=2\x7d\x7d" }

/-- An element without genuine source text (as produced by the builders),
used to witness the skip behaviour. -/
def syntheticNode : ElementNode :=
  { tag := "div", attributes := [tokB], modifiers := [], comments := [],
    line := 0, selfClosing := false, children := [], blockParams := [], src := none }

/-! Definitions written from the spec's words, for comparison with the
source-derived definitions above. -/

/-- Modelled from the spec: "its `lastPosition` lies strictly between the
global minimum `firstPosition` and global maximum `lastPosition` across
*all* categories" — the extremes range over the non-empty categories
(empty ones have no positions). -/
def sandwichSpec (tg : TokenGroups) : Bool :=
  match tg.splattributes.lastIndex,
      (tg.valuesList.filterMap TokenGroup.firstIndex).min?,
      (tg.valuesList.filterMap TokenGroup.lastIndex).max? with
  | some s, some m, some M => decide (m < s) && decide (s < M)
  | _, _, _ => false

/-- Modelled from the spec's applied-order rules, with "`s` defined"
read literally as `isSome` (where the source tests JS truthiness):
if `s == maxLast` or (`s` defined and `s > a`), splattributes go last;
else if `s == minLast` or (`s` defined and `s < a`), they go first;
otherwise they go last. -/
def appliedOrderSpec (cfg : Config) (tg : TokenGroups) : List TokenType :=
  let ints := tg.valuesList.filterMap (fun g => g.lastIndex)
  let maxLast := ints.max?
  let minLast := ints.min?
  let orderMinusSplattributes := cfg.order.filter (fun tt => tt ≠ .splattributes)
  let s := tg.splattributes.lastIndex
  let a := tg.attributes.lastIndex
  if jsEqNum s maxLast || (s.isSome && jsGT s a) then
    orderMinusSplattributes ++ [.splattributes]
  else if jsEqNum s minLast || (s.isSome && jsLT s a) then
    .splattributes :: orderMinusSplattributes
  else
    orderMinusSplattributes ++ [.splattributes]

/-- Modelled from the claim's rank conditions for the category-order
violation predicate: exactly the per-rank comparisons, with an empty
category never violating — and *without* the splattributes-surrounded
suppression that the source applies first. -/
def specViolation (o : List TokenType) (tg : TokenGroups) (tt : TokenType) : Bool :=
  let order := jsIndexOf o tt
  if !(tg.get tt).existsTokens then false
  else if order = 0 then
    jsGT (tg.get tt).lastIndex (groupAt tg o 1).firstIndex ||
    jsGT (tg.get tt).lastIndex (groupAt tg o 2).firstIndex ||
    jsGT (tg.get tt).lastIndex (groupAt tg o 3).firstIndex
  else if order = 1 then
    jsLT (tg.get tt).lastIndex (groupAt tg o 0).firstIndex ||
    jsGT (tg.get tt).lastIndex (groupAt tg o 2).firstIndex
  else if order = 2 then
    jsLT (tg.get tt).lastIndex (groupAt tg o 1).lastIndex ||
    jsGT (tg.get tt).lastIndex (groupAt tg o 3).lastIndex
  else if order = 3 then
    jsLT (tg.get tt).lastIndex (groupAt tg o 2).lastIndex
  else
    false

/-- C1, counterexample.  The element `nodeC1` has a non-empty
splattributes group whose last position 4 lies strictly between the global
minimum first position 0 and the global maximum last position 6, yet
`check` both emits a diagnostic (detection) and issues replace requests
(fix mode): the `firstIndex || Infinity` truthiness fallback discards the
position 0, so `areSplattributesSurrounded` is `false`. -/
theorem c1_counterexample :
    (mkGroups nodeC1).splattributes.existsTokens = true ∧
    sandwichSpec (mkGroups nodeC1) = true ∧
    (checkElement DEFAULT_CONFIG .detect initState nodeC1).diags ≠ [] ∧
    (checkElement DEFAULT_CONFIG .fix initState nodeC1).requests ≠ [] := by
  refine ⟨by decide, by decide, by decide, by decide⟩

/-- C2, evaluation at the failing input.  `nodeC2`'s trailing token is a
comment; the fix path re-sorts the non-comment tokens and calls
`orderComment`, but every rebuilt node it requests has *no* comments: the
trailing comment is dropped, not kept at the end. -/
theorem c2_comment_dropped :
    nodeC2.comments ≠ [] ∧
    (checkElement DEFAULT_CONFIG .fix initState nodeC2).requests ≠ [] ∧
    ((checkElement DEFAULT_CONFIG .fix initState nodeC2).requests.all
      (fun r => r.newNode.comments.isEmpty)) = true := by
  refine ⟨by decide, by decide, by decide⟩

/-- C3, counterexample.  After processing `nodeC3first` (applied order:
splattributes first), the memoized `appliedOrder` is *not* recomputed for
`nodeC3second`: the state after the second visit still holds the first
node's order, which differs from the order the second node's own token
groups would produce. -/
theorem c3_counterexample :
    (checkElement DEFAULT_CONFIG .detect
        (checkElement DEFAULT_CONFIG .detect initState nodeC3first).state
        nodeC3second).state.appliedOrder =
      some (getAppliedOrderFresh DEFAULT_CONFIG (mkGroups nodeC3first)) ∧
    getAppliedOrderFresh DEFAULT_CONFIG (mkGroups nodeC3first) ≠
      getAppliedOrderFresh DEFAULT_CONFIG (mkGroups nodeC3second) := by
  refine ⟨by decide, by decide⟩

/-- C4, counterexample.  In `nodeC4` the arguments category sits at
applied rank 1 and its last position exceeds the rank-2 category's first
position, so the claim's rank-1 condition holds — yet the predicate is
`false`, because the sandwiched splattributes suppress it. -/
theorem c4_counterexample :
    jsIndexOf (getAppliedOrderFresh DEFAULT_CONFIG (mkGroups nodeC4)) TokenType.arguments
      = 1 ∧
    specViolation (getAppliedOrderFresh DEFAULT_CONFIG (mkGroups nodeC4)) (mkGroups nodeC4)
      .arguments = true ∧
    isAttributeUnorderedO (getAppliedOrderFresh DEFAULT_CONFIG (mkGroups nodeC4))
      (mkGroups nodeC4) .arguments = false := by
  refine ⟨by decide, by decide, by decide⟩

/-- C6, counterexample.  Fixing `{{foo _b=1 a=2}}` sorts the hash pairs by
raw key (leaving `_b` first), but detection compares sources normalized by
stripping leading non-alphabetic characters (`_b=1 ↦ b`), so the fixed
node still reports an alphabetization violation. -/
theorem c6_counterexample :
    (checkMustache DEFAULT_CONFIG .detect initState
      (checkMustache DEFAULT_CONFIG .fix initState mustacheC6).node).diags ≠ [] := by
  decide

/-- C7, counterexample.  Fixing `{{foo b=1 a=2}}` changes the node (its
hash pairs are re-sorted — in the source, in place) while issuing *no*
whole-node replacement request. -/
theorem c7_counterexample :
    (checkMustache DEFAULT_CONFIG .fix initState mustacheC7).requests = [] ∧
    (checkMustache DEFAULT_CONFIG .fix initState mustacheC7).node ≠ mustacheC7 := by
  refine ⟨by decide, by decide⟩

/-! Helper lemmas. -/

lemma charToNat_inj {x y : Char} (h : x.toNat = y.toNat) : x = y := by
  apply Char.ext
  exact UInt32.toNat.inj h

lemma lexLt_trans {a b c : List Char} (hab : lexLt a b = true) (hbc : lexLt b c = true) :
    lexLt a c = true := by
  induction a generalizing b c with
  | nil =>
    cases c with
    | nil => cases b <;> simp_all [lexLt]
    | cons z zs => simp [lexLt]
  | cons x xs ih =>
    cases b with
    | nil => simp [lexLt] at hab
    | cons y ys =>
      cases c with
      | nil => simp [lexLt] at hbc
      | cons z zs =>
        simp only [lexLt] at hab hbc ⊢
        by_cases hxy : x.toNat < y.toNat
        · by_cases hyz : y.toNat < z.toNat
          · have hxz : x.toNat < z.toNat := Nat.lt_trans hxy hyz
            simp [hxz]
          · by_cases hzy : z.toNat < y.toNat
            · simp [hyz, hzy] at hbc
            · have hxz : x.toNat < z.toNat := by omega
              simp [hxz]
        · by_cases hyx : y.toNat < x.toNat
          · simp [hxy, hyx] at hab
          · simp only [if_neg hxy, if_neg hyx] at hab
            by_cases hyz : y.toNat < z.toNat
            · have hxz : x.toNat < z.toNat := by omega
              simp [hxz]
            · by_cases hzy : z.toNat < y.toNat
              · simp [hyz, hzy] at hbc
              · simp only [if_neg hyz, if_neg hzy] at hbc
                have h1 : ¬ x.toNat < z.toNat := by omega
                have h2 : ¬ z.toNat < x.toNat := by omega
                simp [h1, h2, ih hab hbc]

lemma lexLt_asymm {a b : List Char} (h : lexLt a b = true) : lexLt b a = false := by
  induction a generalizing b with
  | nil => cases b <;> simp_all [lexLt]
  | cons x xs ih =>
    cases b with
    | nil => simp [lexLt] at h
    | cons y ys =>
      simp only [lexLt] at h ⊢
      by_cases hxy : x.toNat < y.toNat
      · have hyx : ¬ y.toNat < x.toNat := by omega
        simp [hxy, hyx]
      · by_cases hyx : y.toNat < x.toNat
        · simp [hxy, hyx] at h
        · simp only [if_neg hxy, if_neg hyx] at h
          simp [hxy, hyx, ih h]

lemma lexLt_connex {a b : List Char} (hab : lexLt a b = false) (hba : lexLt b a = false) :
    a = b := by
  induction a generalizing b with
  | nil => cases b <;> simp_all [lexLt]
  | cons x xs ih =>
    cases b with
    | nil => simp [lexLt] at hba
    | cons y ys =>
      simp only [lexLt] at hab hba
      by_cases hxy : x.toNat < y.toNat
      · simp [hxy] at hab
      · by_cases hyx : y.toNat < x.toNat
        · simp [hyx] at hba
        · simp only [if_neg hxy, if_neg hyx] at hab hba
          have hx : x = y := charToNat_inj (by omega)
          rw [hx, ih hab hba]

lemma lexLt_lt_or {a b c : List Char} (hca : lexLt c a = true) (hcb : lexLt c b = false) :
    lexLt b a = true := by
  by_cases hbc : lexLt b c = true
  · exact lexLt_trans hbc hca
  · have hbc' : lexLt b c = false := by revert hbc; cases lexLt b c <;> simp
    have hcb' : c = b := lexLt_connex hcb hbc'
    rw [← hcb']
    exact hca

lemma lexLt_neg_trans {a b c : List Char} (hab : lexLt b a = false)
    (hbc : lexLt c b = false) : lexLt c a = false := by
  by_cases hca : lexLt c a = true
  · exact absurd (lexLt_lt_or hca hbc) (by simp [hab])
  · revert hca
    cases lexLt c a <;> simp

lemma pairLe_total (a b : HashPair) : pairLe a b = true ∨ pairLe b a = true := by
  by_cases h : strLt b.key a.key = true
  · right
    simp only [pairLe, strLt] at h ⊢
    simp [lexLt_asymm h]
  · left
    have h' : strLt b.key a.key = false := by revert h; cases strLt b.key a.key <;> simp
    simp [pairLe, h']

lemma pairLe_trans (a b c : HashPair) (h1 : pairLe a b = true) (h2 : pairLe b c = true) :
    pairLe a c = true := by
  simp only [pairLe, strLt, Bool.not_eq_true'] at h1 h2 ⊢
  exact lexLt_neg_trans h1 h2

lemma jsOrderedInsert_mem {le : α → α → Bool} {a x : α} {l : List α} :
    x ∈ jsOrderedInsert le a l ↔ x = a ∨ x ∈ l := by
  induction l with
  | nil => simp [jsOrderedInsert]
  | cons b bs ih =>
    simp only [jsOrderedInsert]
    by_cases h : le a b = true
    · simp only [if_pos h, List.mem_cons]
    · simp only [if_neg h, List.mem_cons, ih]
      tauto

lemma jsOrderedInsert_pairwise {le : α → α → Bool}
    (htrans : ∀ x y z, le x y = true → le y z = true → le x z = true)
    (htotal : ∀ x y, le x y = true ∨ le y x = true)
    {a : α} {l : List α} (h : l.Pairwise (fun x y => le x y = true)) :
    (jsOrderedInsert le a l).Pairwise (fun x y => le x y = true) := by
  induction l with
  | nil => simp [jsOrderedInsert]
  | cons b bs ih =>
    rcases List.pairwise_cons.mp h with ⟨hb, hbs⟩
    simp only [jsOrderedInsert]
    by_cases hab : le a b = true
    · rw [if_pos hab]
      refine List.pairwise_cons.mpr ⟨?_, h⟩
      intro x hx
      rcases List.mem_cons.mp hx with rfl | hx'
      · exact hab
      · exact htrans a b x hab (hb x hx')
    · have hba : le b a = true := by
        rcases htotal a b with h1 | h1
        · exact absurd h1 hab
        · exact h1
      rw [if_neg hab]
      refine List.pairwise_cons.mpr ⟨?_, ih hbs⟩
      intro x hx
      rcases jsOrderedInsert_mem.mp hx with rfl | hx'
      · exact hba
      · exact hb x hx'

lemma jsSort_pairwise {le : α → α → Bool}
    (htrans : ∀ x y z, le x y = true → le y z = true → le x z = true)
    (htotal : ∀ x y, le x y = true ∨ le y x = true)
    (l : List α) : (jsSort le l).Pairwise (fun x y => le x y = true) := by
  induction l with
  | nil => simp [jsSort]
  | cons a l ih => exact jsOrderedInsert_pairwise htrans htotal ih

lemma jsSort_of_pairwise {le : α → α → Bool} {l : List α}
    (h : l.Pairwise (fun x y => le x y = true)) : jsSort le l = l := by
  induction l with
  | nil => rfl
  | cons a l ih =>
    rcases List.pairwise_cons.mp h with ⟨ha, hl⟩
    simp only [jsSort, ih hl]
    cases l with
    | nil => rfl
    | cons b bs => simp [jsOrderedInsert, ha b (by simp)]

lemma jsSort_idem {le : α → α → Bool}
    (htrans : ∀ x y z, le x y = true → le y z = true → le x z = true)
    (htotal : ∀ x y, le x y = true ∨ le y x = true)
    (l : List α) : jsSort le (jsSort le l) = jsSort le l :=
  jsSort_of_pairwise (jsSort_pairwise htrans htotal l)

lemma jsGT_some_zero (a : Option Nat) : jsGT (some 0) a = false := by
  cases a <;> simp [jsGT]

lemma min?_zero_mem {l : List Nat} (h : 0 ∈ l) : l.min? = some 0 := by
  refine (List.min?_eq_some_iff (fun a => Nat.le_refl a) ?_ ?_).mpr
    ⟨h, fun b _ => Nat.zero_le b⟩
  · intro a b
    rcases Nat.le_total a b with hab | hba
    · exact Or.inl (Nat.min_eq_left hab)
    · exact Or.inr (Nat.min_eq_right hba)
  · intro a b c
    exact Nat.le_min

/-- State effect of one `getAppliedOrder` call: the memo ends up filled
with the cached value if present, else with the fresh computation. -/
def stNext (cfg : Config) (st : RuleState) : RuleState :=
  { st with
    appliedOrder := some (st.appliedOrder.getD (getAppliedOrderFresh cfg st.tokenGroups)) }

lemma gaos_snd (cfg : Config) (st : RuleState) :
    (getAppliedOrderSt cfg st).2 = stNext cfg st := by
  cases h : st.appliedOrder with
  | none => simp [getAppliedOrderSt, stNext, h]
  | some o =>
    cases st
    simp_all [getAppliedOrderSt, stNext]

lemma gaos_fst (cfg : Config) (st : RuleState) :
    (getAppliedOrderSt cfg st).1 =
      st.appliedOrder.getD (getAppliedOrderFresh cfg st.tokenGroups) := by
  cases h : st.appliedOrder <;> simp [getAppliedOrderSt, h]

lemma stNext_tokenGroups (cfg : Config) (st : RuleState) :
    (stNext cfg st).tokenGroups = st.tokenGroups := rfl

lemma stNext_idem (cfg : Config) (st : RuleState) :
    stNext cfg (stNext cfg st) = stNext cfg st := by
  simp [stNext]

lemma stNext_of_some {st : RuleState} {o : List TokenType} (cfg : Config)
    (h : st.appliedOrder = some o) : stNext cfg st = st := by
  cases st
  simp_all [stNext]

lemma alph_state (cfg : Config) (mode : Mode) (st : RuleState) (node : ElementNode)
    (tt : TokenType) :
    (alphabetizeAttribute cfg mode st node tt).2.2 = st ∨
    (alphabetizeAttribute cfg mode st node tt).2.2 = stNext cfg st := by
  unfold alphabetizeAttribute alphabetizeAttributeFix
  cases findUnalphabetizedToken (st.tokenGroups.get tt) <;> cases mode <;>
    simp [gaos_snd]

lemma ord_state (cfg : Config) (mode : Mode) (o : List TokenType) (st : RuleState)
    (node : ElementNode) (tt : TokenType) :
    (orderAttribute cfg mode o st node tt).2.2 = st ∨
    (orderAttribute cfg mode o st node tt).2.2 = stNext cfg st := by
  unfold orderAttribute orderAttributeFix
  cases mode <;> simp [gaos_snd]

lemma alphPart_state (cfg : Config) (mode : Mode) (st : RuleState) (node : ElementNode)
    (tt : TokenType) :
    (alphPart cfg mode st node tt).2.2 = st ∨
    (alphPart cfg mode st node tt).2.2 = stNext cfg st := by
  simp only [alphPart]
  split
  · exact alph_state cfg mode st node tt
  · exact Or.inl rfl

lemma ordPart_state (cfg : Config) (mode : Mode) (st : RuleState) (node : ElementNode)
    (tt : TokenType) : (ordPart cfg mode st node tt).2.2 = stNext cfg st := by
  simp only [ordPart]
  split
  · rcases ord_state cfg mode (getAppliedOrderSt cfg st).1 (getAppliedOrderSt cfg st).2
        node tt with h | h
    · rw [h, gaos_snd]
    · rw [h, gaos_snd, stNext_idem]
  · exact gaos_snd cfg st

lemma checkStep_state (cfg : Config) (mode : Mode) (node : ElementNode) (tt : TokenType)
    (st : RuleState) : (checkStep cfg mode node tt st).2.2 = stNext cfg st := by
  simp only [checkStep]
  rcases alphPart_state cfg mode st node tt with h | h <;> rw [h, ordPart_state]
  rw [stNext_idem]

lemma checkLoop_state (cfg : Config) (mode : Mode) (node : ElementNode) :
    ∀ (order : List TokenType) (st : RuleState),
      (checkLoop cfg mode node order st).state =
        (match order with
         | [] => st
         | _ :: _ => stNext cfg st)
  | [], _ => rfl
  | tt :: rest, st => by
    simp only [checkLoop]
    rw [checkLoop_state cfg mode node rest, checkStep_state]
    cases rest with
    | nil => rfl
    | cons t ts => simp [stNext_idem]

lemma natMinOr (a b : Nat) : min a b = a ∨ min a b = b := by
  rcases Nat.le_total a b with h | h
  · exact Or.inl (Nat.min_eq_left h)
  · exact Or.inr (Nat.min_eq_right h)

lemma natMaxOr (a b : Nat) : max a b = a ∨ max a b = b := by
  rcases Nat.le_total a b with h | h
  · exact Or.inr (Nat.max_eq_right h)
  · exact Or.inl (Nat.max_eq_left h)

lemma lastIndex_mem {g : TokenGroup} {n : Nat} (h : g.lastIndex = some n) :
    n ∈ g.indexes :=
  List.max?_mem natMaxOr h

lemma firstIndex_mem {g : TokenGroup} {n : Nat} (h : g.firstIndex = some n) :
    n ∈ g.indexes :=
  List.min?_mem natMinOr h

/-- All child tokens of an element node, in source-object order. -/
def nodeTokens (node : ElementNode) : List RawToken :=
  node.attributes ++ node.modifiers ++ node.comments

lemma mkGroups_items_sub {node : ElementNode} {g : TokenGroup}
    (hg : g ∈ (mkGroups node).valuesList) {t : RawToken} (ht : t ∈ g.items) :
    t ∈ nodeTokens node := by
  simp only [TokenGroups.valuesList, mkGroups, List.mem_cons, List.not_mem_nil,
    or_false] at hg
  rcases hg with rfl | rfl | rfl | rfl | rfl <;>
    simp only at ht <;> simp only [nodeTokens, List.mem_append]
  · exact Or.inl (Or.inl (List.mem_filter.mp ht).1)
  · exact Or.inl (Or.inl (List.mem_filter.mp ht).1)
  · rcases List.mem_append.mp ht with h' | h'
    · exact Or.inl (Or.inl (List.mem_filter.mp h').1)
    · exact Or.inl (Or.inr h')
  · exact Or.inl (Or.inl (List.mem_filter.mp ht).1)
  · rcases List.mem_append.mp ht with h' | h'
    · exact Or.inl (Or.inl (List.mem_filter.mp h').1)
    · exact Or.inr h'

lemma indexes_ne_zero {node : ElementNode}
    (h : ∀ t ∈ nodeTokens node, calculateAttributeIndex t ≠ 0) :
    ∀ g ∈ (mkGroups node).valuesList, ∀ i ∈ g.indexes, i ≠ 0 := by
  intro g hg i hi
  simp only [TokenGroup.indexes, List.mem_map] at hi
  obtain ⟨t, ht, rfl⟩ := hi
  exact h t (mkGroups_items_sub hg ht)

lemma surrounded_eq_sandwich {tg : TokenGroups}
    (hz : ∀ g ∈ tg.valuesList, ∀ i ∈ g.indexes, i ≠ 0) :
    areSplattributesSurrounded tg = sandwichSpec tg := by
  have hmax : (tg.valuesList.filterMap fun g =>
      match g.lastIndex with
      | some n => if n = 0 then none else some n
      | none => none) = tg.valuesList.filterMap TokenGroup.lastIndex := by
    apply List.filterMap_congr
    intro g hg
    cases hl : g.lastIndex with
    | none => rfl
    | some n =>
      have hn : n ≠ 0 := hz g hg n (lastIndex_mem hl)
      simp [hn]
  have hmin : (tg.valuesList.filterMap fun g =>
      match g.firstIndex with
      | some n => if n = 0 then none else some n
      | none => none) = tg.valuesList.filterMap TokenGroup.firstIndex := by
    apply List.filterMap_congr
    intro g hg
    cases hl : g.firstIndex with
    | none => rfl
    | some n =>
      have hn : n ≠ 0 := hz g hg n (firstIndex_mem hl)
      simp [hn]
  unfold areSplattributesSurrounded sandwichSpec
  rw [hmax, hmin]
  cases hs : tg.splattributes.lastIndex with
  | none => simp [jsLT]
  | some s =>
    cases hm : (tg.valuesList.filterMap TokenGroup.firstIndex).min? with
    | none => simp [jsLT, hm]
    | some m =>
      cases hM : (tg.valuesList.filterMap TokenGroup.lastIndex).max? with
      | none => simp [jsLT, hm, hM]
      | some M => simp [jsLT, hm, hM]

lemma isUnordered_of_surrounded {tg : TokenGroups} (o : List TokenType) (tt : TokenType)
    (h : areSplattributesSurrounded tg = true) :
    isAttributeUnorderedO o tg tt = false := by
  unfold isAttributeUnorderedO
  cases hex : (tg.get tt).existsTokens <;> simp [h, hex]

lemma alphPart_skip {cfg : Config} {mode : Mode} {st : RuleState} {node : ElementNode}
    {tt : TokenType} (h : areSplattributesSurrounded st.tokenGroups = true) :
    alphPart cfg mode st node tt = ([], [], st) := by
  simp [alphPart, h]

lemma ordPart_skip {cfg : Config} {mode : Mode} {st : RuleState} {node : ElementNode}
    {tt : TokenType} (h : areSplattributesSurrounded st.tokenGroups = true) :
    ordPart cfg mode st node tt = ([], [], (getAppliedOrderSt cfg st).2) := by
  have hg : (getAppliedOrderSt cfg st).2.tokenGroups = st.tokenGroups := by
    rw [gaos_snd, stNext_tokenGroups]
  have hu : isAttributeUnorderedO (getAppliedOrderSt cfg st).1
      (getAppliedOrderSt cfg st).2.tokenGroups tt = false := by
    rw [hg]
    exact isUnordered_of_surrounded _ _ h
  simp [ordPart, hu]

lemma checkLoop_surrounded (cfg : Config) (mode : Mode) (node : ElementNode) :
    ∀ (order : List TokenType) (st : RuleState),
      areSplattributesSurrounded st.tokenGroups = true →
      (checkLoop cfg mode node order st).diags = [] ∧
      (checkLoop cfg mode node order st).requests = []
  | [], _, _ => ⟨rfl, rfl⟩
  | tt :: rest, st, h => by
    have hstep : checkStep cfg mode node tt st =
        ([], [], (getAppliedOrderSt cfg st).2) := by
      simp only [checkStep, alphPart_skip h, ordPart_skip h]
      rfl
    have hnext : areSplattributesSurrounded
        (getAppliedOrderSt cfg st).2.tokenGroups = true := by
      rw [gaos_snd, stNext_tokenGroups]
      exact h
    have ih := checkLoop_surrounded cfg mode node rest (getAppliedOrderSt cfg st).2 hnext
    simp only [checkLoop, hstep]
    exact ⟨by simp [ih.1], by simp [ih.2]⟩

/-- C1, amended claim.  The sandwiched-splattributes suppression works as
the claim states *provided every token's position index is nonzero* (a
position index of exactly `0` — a token at column 0 — is discarded by the
source's `firstIndex || Infinity` / `lastIndex || -Infinity` truthiness
fallbacks): for such a node with a
non-empty, strictly sandwiched splattributes group, `check` emits no
diagnostic and issues no replace request, in both modes. -/
theorem c1_amended (cfg : Config) (mode : Mode) (st : RuleState) (node : ElementNode)
    (hz : ∀ t ∈ nodeTokens node, calculateAttributeIndex t ≠ 0)
    (_hsplat : (mkGroups node).splattributes.existsTokens = true)
    (hs : sandwichSpec (mkGroups node) = true) :
    (checkElement cfg mode st node).diags = [] ∧
    (checkElement cfg mode st node).requests = [] := by
  unfold checkElement
  cases hsrc : truthySrc node.src with
  | false => exact ⟨rfl, rfl⟩
  | true =>
    simp only [hsrc, Bool.not_true, Bool.false_eq_true, if_false]
    have hsurr : areSplattributesSurrounded (mkGroups node) = true := by
      rw [surrounded_eq_sandwich (indexes_ne_zero hz)]
      exact hs
    exact checkLoop_surrounded cfg mode node cfg.order
      { st with tokenGroups := mkGroups node } hsurr

/-- C1, witness.  `c1_amended` applied to the genuinely sandwiched element
`<div a="1" ...attributes b="2">` in fix mode. -/
theorem c1_witness :
    sandwichSpec (mkGroups nodeSand) = true ∧
    ((checkElement DEFAULT_CONFIG .fix initState nodeSand).diags = [] ∧
      (checkElement DEFAULT_CONFIG .fix initState nodeSand).requests = []) :=
  ⟨by decide,
    c1_amended DEFAULT_CONFIG .fix initState nodeSand (by decide) (by decide) (by decide)⟩

/-- C3, amended claim.  The applied-order memo lives on the rule instance
and is never invalidated: whenever it is already set, processing any
further node leaves it untouched (so that node's applied order is the
*earlier* node's), and a first sourced node under a non-empty configured
order fills it with the order computed from that node's own groups. -/
theorem c3_amended (cfg : Config) (mode : Mode) (st : RuleState) (node : ElementNode)
    (o : List TokenType) :
    (st.appliedOrder = some o →
      (checkElement cfg mode st node).state.appliedOrder = some o) ∧
    (st.appliedOrder = none → truthySrc node.src = true → cfg.order ≠ [] →
      (checkElement cfg mode st node).state.appliedOrder =
        some (getAppliedOrderFresh cfg (mkGroups node))) := by
  constructor
  · intro h
    unfold checkElement
    cases hsrc : truthySrc node.src with
    | false => simpa using h
    | true =>
      simp only [hsrc, Bool.not_true, Bool.false_eq_true, if_false]
      rw [checkLoop_state]
      cases cfg.order with
      | nil => simpa using h
      | cons t ts => simp [stNext, h]
  · intro h hsrc horder
    unfold checkElement
    simp only [hsrc, Bool.not_true, Bool.false_eq_true, if_false]
    rw [checkLoop_state]
    cases ho : cfg.order with
    | nil => exact absurd ho horder
    | cons t ts => simp [stNext, h]

/-- C3, witness.  `c3_amended` applied to the two concrete nodes of the
counterexample: after the first visit the memo holds the first node's
order, and the second visit keeps it. -/
theorem c3_witness :
    (checkElement DEFAULT_CONFIG .detect initState nodeC3first).state.appliedOrder =
      some (getAppliedOrderFresh DEFAULT_CONFIG (mkGroups nodeC3first)) ∧
    (checkElement DEFAULT_CONFIG .detect
      (checkElement DEFAULT_CONFIG .detect initState nodeC3first).state
      nodeC3second).state.appliedOrder =
        some (getAppliedOrderFresh DEFAULT_CONFIG (mkGroups nodeC3first)) :=
  ⟨(c3_amended DEFAULT_CONFIG .detect initState nodeC3first []).2 rfl (by decide)
      (by decide),
    (c3_amended DEFAULT_CONFIG .detect
        (checkElement DEFAULT_CONFIG .detect initState nodeC3first).state nodeC3second
        (getAppliedOrderFresh DEFAULT_CONFIG (mkGroups nodeC3first))).1
      ((c3_amended DEFAULT_CONFIG .detect initState nodeC3first []).2 rfl (by decide)
        (by decide))⟩

/-- C5, confirmed.  The applied-order computation agrees exactly with the
spec's three-branch rule (with "`s` defined" read as `isSome`): the only
candidate divergence is the JS truthiness test on `s` when `s = 0`, and in
that case `0` is necessarily the minimum `lastPosition`, so both sides
place splattributes first (or both take the `maxLast` branch). -/
theorem c5_confirmed (cfg : Config) (tg : TokenGroups) :
    getAppliedOrderFresh cfg tg = appliedOrderSpec cfg tg := by
  unfold getAppliedOrderFresh appliedOrderSpec
  cases h : tg.splattributes.lastIndex with
  | none => simp [h, truthyNum]
  | some n =>
    cases n with
    | succ m => simp [h, truthyNum]
    | zero =>
      have hmem : (0 : Nat) ∈ tg.valuesList.filterMap (fun g => g.lastIndex) := by
        refine List.mem_filterMap.mpr ⟨tg.splattributes, ?_, h⟩
        simp [TokenGroups.valuesList]
      have hmin := min?_zero_mem hmem
      simp [h, hmin, truthyNum, jsGT_some_zero, jsEqNum]

/-- C4, amended claim.  With the sandwiched-splattributes suppression
removed from the picture (the hypothesis), the category-order violation
predicate is exactly the claim's per-rank condition table, and an empty
category never violates. -/
theorem c4_amended (o : List TokenType) (tg : TokenGroups) (tt : TokenType)
    (h : areSplattributesSurrounded tg = false) :
    isAttributeUnorderedO o tg tt = specViolation o tg tt := by
  unfold isAttributeUnorderedO specViolation
  simp [h]

/-- C4, witness.  A concrete instantiation of `c4_amended` at the
(unsurrounded) Example-1 element and its own applied order. -/
theorem c4_witness :
    areSplattributesSurrounded (mkGroups nodeEx1) = false ∧
    isAttributeUnorderedO (getAppliedOrderFresh DEFAULT_CONFIG (mkGroups nodeEx1))
        (mkGroups nodeEx1) .attributes =
      specViolation (getAppliedOrderFresh DEFAULT_CONFIG (mkGroups nodeEx1))
        (mkGroups nodeEx1) .attributes :=
  ⟨by decide, c4_amended _ _ _ (by decide)⟩

/-- JS condition "the `order` field is present and omits one of the three
required categories" (the throwing condition of `parseConfig` beyond shape
validity). -/
def omitsRequired : ConfigValue → Bool
  | .obj _ (some l) =>
    !([TokenType.arguments, .attributes, .modifiers].all (fun tt => l.contains tt))
  | _ => false

/-- JS observable "`parseConfig` throws". -/
def parseThrows (c : ConfigValue) : Bool :=
  match parseConfig c with
  | .error _ => true
  | .ok _ => false

/-- C9, confirmed.  `parseConfig` raises exactly when the raw shape is
invalid or an object's `order` omits a required category; `false` parses
to the disabled marker; every other accepted value parses without
raising. -/
theorem c9_confirmed :
    (∀ c : ConfigValue,
      parseThrows c = (!isValidConfigObjectFormat c || omitsRequired c)) ∧
    parseConfig (.bool false) = .ok .disabled := by
  constructor
  · intro c
    cases c with
    | bool b => cases b <;> rfl
    | other => rfl
    | obj al ord =>
      cases ord with
      | none => rfl
      | some l =>
        by_cases h1 : TokenType.arguments ∈ l <;>
          by_cases h2 : TokenType.attributes ∈ l <;>
            by_cases h3 : TokenType.modifiers ∈ l <;>
              simp [parseThrows, parseConfig, omitsRequired, isValidConfigObjectFormat,
                h1, h2, h3]
  · rfl

/-- C10, confirmed.  A shape-valid raw value that is neither `false` nor
an object parses to the default config, and an accepted object is merged
over the default field by field (`{...DEFAULT_CONFIG, ...config}`). -/
theorem c10_confirmed :
    (∀ c : ConfigValue, (∀ al ord, c ≠ .obj al ord) → c ≠ .bool false →
      isValidConfigObjectFormat c = true →
      parseConfig c = .ok (.enabled DEFAULT_CONFIG)) ∧
    (∀ (al : Option Bool) (ord : Option (List TokenType)),
      omitsRequired (.obj al ord) = false →
      parseConfig (.obj al ord) = .ok (.enabled
        { alphabetize := al.getD DEFAULT_CONFIG.alphabetize
          order := ord.getD DEFAULT_CONFIG.order })) := by
  constructor
  · intro c hobj hfalse hvalid
    cases c with
    | bool b =>
      cases b with
      | false => exact absurd rfl hfalse
      | true => rfl
    | obj al ord => exact absurd rfl (hobj al ord)
    | other => exact absurd hvalid (by decide)
  · intro al ord h
    cases ord with
    | none => rfl
    | some l =>
      simp only [omitsRequired, Bool.not_eq_false', List.all_cons, List.all_nil,
        Bool.and_eq_true, List.contains, List.elem_eq_mem, decide_eq_true_eq,
        and_true] at h
      simp [parseConfig, isValidConfigObjectFormat, h.1, h.2.1, h.2.2]

/-- C10, witness.  `c10_confirmed` applied at `true` and at the object
`{alphabetize: false}` (no `order` field). -/
theorem c10_witness :
    parseConfig (.bool true) = .ok (.enabled DEFAULT_CONFIG) ∧
    parseConfig (.obj (some false) none) = .ok (.enabled
      { alphabetize := false, order := DEFAULT_CONFIG.order }) :=
  ⟨c10_confirmed.1 (.bool true) (fun _ _ h => ConfigValue.noConfusion h)
      (fun h => by cases h) rfl,
    c10_confirmed.2 (some false) none rfl⟩

lemma rebuildNode_src (node : ElementNode) (sorted : List RawToken) :
    (rebuildNode node sorted).src = none := rfl

lemma alph_requests (cfg : Config) (mode : Mode) (st : RuleState) (node : ElementNode)
    (tt : TokenType) :
    ∀ r ∈ (alphabetizeAttribute cfg mode st node tt).2.1,
      r.old = node ∧ r.newNode.src = none := by
  unfold alphabetizeAttribute alphabetizeAttributeFix
  cases findUnalphabetizedToken (st.tokenGroups.get tt) with
  | none =>
    intro r hr
    simp at hr
  | some item =>
    cases mode with
    | detect =>
      intro r hr
      simp at hr
    | fix =>
      intro r hr
      simp only [List.mem_cons, List.not_mem_nil, or_false] at hr
      rcases hr with rfl | rfl
      · exact ⟨rfl, rfl⟩
      · exact ⟨rfl, rfl⟩

lemma ord_requests (cfg : Config) (mode : Mode) (o : List TokenType) (st : RuleState)
    (node : ElementNode) (tt : TokenType) :
    ∀ r ∈ (orderAttribute cfg mode o st node tt).2.1,
      r.old = node ∧ r.newNode.src = none := by
  unfold orderAttribute orderAttributeFix
  cases mode with
  | detect =>
    intro r hr
    simp at hr
  | fix =>
    intro r hr
    simp only [List.mem_cons, List.not_mem_nil, or_false] at hr
    rw [hr]
    exact ⟨rfl, rfl⟩

lemma alphPart_requests (cfg : Config) (mode : Mode) (st : RuleState) (node : ElementNode)
    (tt : TokenType) :
    ∀ r ∈ (alphPart cfg mode st node tt).2.1, r.old = node ∧ r.newNode.src = none := by
  simp only [alphPart]
  split
  · exact alph_requests cfg mode st node tt
  · intro r hr
    simp at hr

lemma ordPart_requests (cfg : Config) (mode : Mode) (st : RuleState) (node : ElementNode)
    (tt : TokenType) :
    ∀ r ∈ (ordPart cfg mode st node tt).2.1, r.old = node ∧ r.newNode.src = none := by
  simp only [ordPart]
  split
  · exact ord_requests cfg mode _ _ node tt
  · intro r hr
    simp at hr

lemma checkStep_requests (cfg : Config) (mode : Mode) (node : ElementNode) (tt : TokenType)
    (st : RuleState) :
    ∀ r ∈ (checkStep cfg mode node tt st).2.1, r.old = node ∧ r.newNode.src = none := by
  simp only [checkStep]
  intro r hr
  rcases List.mem_append.mp hr with h | h
  · exact alphPart_requests cfg mode st node tt r h
  · exact ordPart_requests cfg mode _ node tt r h

lemma checkLoop_requests (cfg : Config) (mode : Mode) (node : ElementNode) :
    ∀ (order : List TokenType) (st : RuleState),
      ∀ r ∈ (checkLoop cfg mode node order st).requests,
        r.old = node ∧ r.newNode.src = none
  | [], _, r, hr => by simp [checkLoop] at hr
  | tt :: rest, st, r, hr => by
    simp only [checkLoop] at hr
    rcases List.mem_append.mp hr with h | h
    · exact checkStep_requests cfg mode node tt st r h
    · exact checkLoop_requests cfg mode node rest _ r h

lemma checkElement_requests (cfg : Config) (mode : Mode) (st : RuleState)
    (node : ElementNode) :
    ∀ r ∈ (checkElement cfg mode st node).requests,
      r.old = node ∧ r.newNode.src = none := by
  unfold checkElement
  split
  · intro r hr
    simp at hr
  · exact checkLoop_requests cfg mode node cfg.order _

lemma checkMustache_node_indep (cfg : Config) (stX stY : RuleState) (n : MustacheNode) :
    (checkMustache cfg .fix stX n).node = (checkMustache cfg .fix stY n).node := by
  unfold checkMustache
  split
  · rfl
  · dsimp only
    split <;> rfl

lemma checkMustache_fix_node (cfg : Config) (st : RuleState) (n : MustacheNode) :
    (checkMustache cfg .fix st n).node = n ∨
    (checkMustache cfg .fix st n).node = { n with pairs := jsSort pairLe n.pairs } := by
  unfold checkMustache
  split
  · exact Or.inl rfl
  · dsimp only
    split
    · exact Or.inr rfl
    · exact Or.inl rfl

lemma mustacheEta (n : MustacheNode) : { n with pairs := n.pairs } = n := by
  cases n
  rfl

/-- C6, amended claim.  What survives of the idempotence claim: (a) the
mustache fixer is idempotent as a node transformation (fixing an
already-fixed mustache node returns it unchanged, for any rule states);
(b) every rebuilt node an element fix requests has no genuine source; and
(c) `check` skips any sourceless node entirely, emitting no diagnostics
and requesting nothing — so a fixed element node reports no further
violations only because it is skipped, while a fixed mustache node can
still report one (see the counterexample). -/
theorem c6_amended (cfg : Config) (st st2 : RuleState) (m : MustacheNode)
    (node : ElementNode) (mode : Mode) :
    (checkMustache cfg .fix st2 ((checkMustache cfg .fix st m).node)).node =
      (checkMustache cfg .fix st m).node ∧
    ((checkElement cfg .fix st node).requests.all
      (fun r => r.newNode.src.isNone)) = true ∧
    (node.src = none →
      (checkElement cfg mode st node).diags = [] ∧
      (checkElement cfg mode st node).requests = []) := by
  refine ⟨?_, ?_, ?_⟩
  · rcases checkMustache_fix_node cfg st m with h1 | h1
    · rw [h1, checkMustache_node_indep cfg st2 st m, h1]
    · rw [h1]
      rcases checkMustache_fix_node cfg st2 { m with pairs := jsSort pairLe m.pairs }
        with h2 | h2
      · rw [h2]
      · rw [h2, jsSort_idem pairLe_trans pairLe_total]
  · refine List.all_eq_true.mpr ?_
    intro r hr
    rw [(checkElement_requests cfg .fix st node r hr).2]
    rfl
  · intro h
    have hsrc : truthySrc node.src = false := by rw [h]; rfl
    unfold checkElement
    rw [hsrc]
    exact ⟨rfl, rfl⟩

/-- C6, witness.  `c6_amended` applied to the `{{foo _b=1 a=2}}` mustache
and a sourceless element node. -/
theorem c6_witness :
    (checkMustache DEFAULT_CONFIG .fix initState
        ((checkMustache DEFAULT_CONFIG .fix initState mustacheC6).node)).node =
      (checkMustache DEFAULT_CONFIG .fix initState mustacheC6).node ∧
    syntheticNode.src = none ∧
    (checkElement DEFAULT_CONFIG .detect initState syntheticNode).diags = [] :=
  ⟨(c6_amended DEFAULT_CONFIG initState initState mustacheC6 syntheticNode .detect).1,
    rfl,
    ((c6_amended DEFAULT_CONFIG initState initState mustacheC6 syntheticNode
      .detect).2.2 rfl).1⟩

lemma checkMustache_fix_requests (cfg : Config) (st : RuleState) (n : MustacheNode) :
    (checkMustache cfg .fix st n).requests = [] := by
  unfold checkMustache
  split
  · rfl
  · dsimp only
    split <;> rfl

/-- C7, amended claim.  Element-node fixes do go through whole-node
replacement requests that always target the visited node itself — but the
mustache fix changes the node's hash pairs (sorting them by key, in place
in the source) while issuing *no* replacement request, so the "replace
whole node or change nothing" guarantee does not hold for mustache
statements. -/
theorem c7_amended (cfg : Config) (st : RuleState) (m : MustacheNode)
    (node : ElementNode) :
    (checkMustache cfg .fix st m).requests = [] ∧
    ((checkMustache cfg .fix st m).node.pairs = jsSort pairLe m.pairs ∨
      (checkMustache cfg .fix st m).node.pairs = m.pairs) ∧
    ((checkElement cfg .fix st node).requests.all
      (fun r => decide (r.old = node))) = true := by
  refine ⟨checkMustache_fix_requests cfg st m, ?_, ?_⟩
  · rcases checkMustache_fix_node cfg st m with h | h <;> rw [h]
    · exact Or.inr rfl
    · exact Or.inl rfl
  · refine List.all_eq_true.mpr ?_
    intro r hr
    simp [(checkElement_requests cfg .fix st node r hr).1]

/-- Category display names as the claim's amendment describes them: the
category name with its first letter capitalized and its final character
dropped (the effect of `string[0].toUpperCase() + string.slice(1, -1)`). -/
def categoryDisplay : TokenType → String
  | .arguments => "Argument"
  | .attributes => "Attribute"
  | .modifiers => "Modifier"
  | .splattributes => "Splattribute"
  | .comments => "Comment"

/-- C8, amended claim.  The not-alphabetized message is the category name
capitalized *with its final character dropped* (no backticks around the
source text), and for Example 1 the single emitted diagnostic is exactly
`Attribute a="2" is not alphabetized`. -/
theorem c8_amended :
    (∀ (tt : TokenType) (source : String),
      createNotAlphabetizedErrorMessage tt source =
        categoryDisplay tt ++ " " ++ source ++ " is not alphabetized") ∧
    (checkElement DEFAULT_CONFIG .detect initState nodeEx1).diags =
      ["Attribute a=\"2\" is not alphabetized"] := by
  constructor
  · intro tt source
    cases tt <;>
      simp [createNotAlphabetizedErrorMessage, TokenType.toStr, categoryDisplay,
        show capitalizedAttribute "arguments" = "Argument" from by decide,
        show capitalizedAttribute "attributes" = "Attribute" from by decide,
        show capitalizedAttribute "modifiers" = "Modifier" from by decide,
        show capitalizedAttribute "splattributes" = "Splattribute" from by decide,
        show capitalizedAttribute "comments" = "Comment" from by decide]
  · decide

/-- C8, counterexample.  For Example 1 the emitted message is
`Attribute a="2" is not alphabetized` — `capitalizedAttribute` uses
`slice(1, -1)`, dropping the category name's final `s`, and no backticks
are added — so the claimed exact message never appears. -/
theorem c8_counterexample :
    ((checkElement DEFAULT_CONFIG .detect initState nodeEx1).diags.contains
      "Attributes `a=\"2\"` is not alphabetized") = false ∧
    (checkElement DEFAULT_CONFIG .detect initState nodeEx1).diags ≠ [] := by
  refine ⟨by decide, by decide⟩

end AttrOrder
